import Mathlib

/-!
Shallow embedding of the UI logic of the react-docxodus-viewer repository,
together with theorems checking its natural-language specification.

The repository is a React UI shell around an external WASM document engine.
The embedding below models the pure decision logic of that shell:
the revision-panel filter and text truncation (RevisionPanel.tsx),
the option-to-parameter mapping and conversion state machine
(DocumentViewer.tsx), the worker-routing decision and error handling of the
library DocumentViewer, the toolbar / settings-modal rendering layout, the
zoom-scale clamping, and the Vite dev-server WASM middleware.
Engine predicates and engine results are treated as opaque parameters,
since the engine itself is outside the repository.
-/

namespace Rdv

/-! ## RevisionPanel (src/src/components/RevisionPanel.tsx) -/

/-- A tracked-change revision as displayed by the panel.  The shape is owned
by the external engine; the panel reads `author`, `date`, `text` and
`isMoveSource`, and classifies revisions only through the engine's
predicates.  Text is modelled as a list of characters. -/
structure Revision where
  author : String
  date : String
  revisionType : String
  text : List Char
  isMoveSource : Bool

/-- The category predicates `isInsertion`, `isDeletion`, `isMove`,
`isFormatChange` imported from the external engine, modelled as opaque
boolean predicates on revisions. -/
structure RevisionPreds where
  isInsertion : Revision → Bool
  isDeletion : Revision → Bool
  isMove : Revision → Bool
  isFormatChange : Revision → Bool

/-- The filter dropdown values of the revision panel. -/
inductive FilterType where
  | all
  | insertions
  | deletions
  | moves
  | formatting
deriving DecidableEq

/-- Embedding of the `filteredRevisions` memo of `RevisionPanel`:
if the filter is `all` the input list is returned unchanged, otherwise the
list is filtered by a switch on the filter value (with a default branch
keeping the revision, as in the source). -/
def filteredRevisions (P : RevisionPreds) (filter : FilterType)
    (revisions : List Revision) : List Revision :=
  if filter = FilterType.all then revisions
  else revisions.filter fun rev =>
    match filter with
    | FilterType.insertions => P.isInsertion rev
    | FilterType.deletions => P.isDeletion rev
    | FilterType.moves => P.isMove rev
    | FilterType.formatting => P.isFormatChange rev
    | FilterType.all => true

/-- Embedding of `truncateText` from `RevisionPanel.tsx`: a string of length
at most `maxLength` is returned unchanged, a longer one is cut to its first
`maxLength` characters followed by three dots. -/
def truncateText (text : List Char) (maxLength : Nat) : List Char :=
  if text.length ≤ maxLength then text
  else text.take maxLength ++ String.toList "..."

/-- What one revision item of the panel shows: the text span and whether the
expand ("Show more") button is rendered. -/
structure RevisionItemView where
  shownText : List Char
  hasExpandButton : Bool

/-- Embedding of the revision-item rendering in `RevisionPanel`: the shown
text is the full text when expanded and the truncation at 100 characters
otherwise; the expand button is rendered exactly when
`revision.text.length > 100` (`needsTruncation` in the source). -/
def renderRevisionItem (isExpanded : Bool) (revision : Revision) :
    RevisionItemView :=
  { shownText :=
      if isExpanded then revision.text else truncateText revision.text 100,
    hasExpandButton := decide (100 < revision.text.length) }

/-! ## Option mapping of the demo DocumentViewer
(src/src/components/DocumentViewer.tsx) -/

/-- The comment-mode radio values of the viewer. -/
inductive CommentMode where
  | disabled
  | endnote
  | inline
  | margin
deriving DecidableEq

/-- The `CommentRenderMode` enum of the external engine, as consumed here. -/
inductive CommentRenderMode where
  | Disabled
  | EndnoteStyle
  | Inline
  | Margin
deriving DecidableEq

/-- The `PaginationMode` enum of the external engine, as consumed here. -/
inductive PaginationMode where
  | None
  | Paginated
deriving DecidableEq

/-- Embedding of `getCommentRenderMode`: a switch mapping the radio value to
the engine enum, with `Disabled` as the default branch. -/
def getCommentRenderMode : CommentMode → CommentRenderMode
  | CommentMode.endnote => CommentRenderMode.EndnoteStyle
  | CommentMode.inline => CommentRenderMode.Inline
  | CommentMode.margin => CommentRenderMode.Margin
  | CommentMode.disabled => CommentRenderMode.Disabled

/-- The option-relevant state of the demo `DocumentViewer` component: the
user's toggles and text fields that feed `getConvertOptions`.  The scale is
a JS number, modelled as a rational. -/
structure DemoOptionsState where
  commentMode : CommentMode
  pageTitle : String
  cssPref : String
  fabricateClasses : Bool
  additionalCss : String
  commentCssClassPref : String
  enablePagination : Bool
  paginationScale : ℚ

/-- The options object the viewer forwards to the engine's `convertToHtml`.
Optional JS fields (possibly `undefined`) are modelled with `Option`. -/
structure ConvertOptions where
  commentRenderMode : CommentRenderMode
  pageTitle : String
  cssPref : String
  fabricateClasses : Bool
  additionalCss : Option String
  commentCssClassPref : String
  paginationMode : PaginationMode
  paginationScale : Option ℚ

/-- The optional `overrides` argument of `getConvertOptions`; every field may
be absent. -/
structure ConvertOverrides where
  commentRenderMode : Option CommentRenderMode
  paginationMode : Option PaginationMode
  paginationScale : Option ℚ
  fabricateClasses : Option Bool

/-- The call `getConvertOptions()` with no overrides supplied. -/
def noOverrides : ConvertOverrides :=
  { commentRenderMode := Option.none, paginationMode := Option.none,
    paginationScale := Option.none, fabricateClasses := Option.none }

/-- Embedding of the demo viewer's `getConvertOptions`: each field of the
options object as built in the source, with `??` modelled by `Option.getD`
(or a match where the fallback is itself optional), and
`additionalCss || undefined` mapping the empty string to `undefined`. -/
def getConvertOptions (s : DemoOptionsState) (o : ConvertOverrides) :
    ConvertOptions :=
  { commentRenderMode :=
      o.commentRenderMode.getD (getCommentRenderMode s.commentMode),
    pageTitle := s.pageTitle,
    cssPref := s.cssPref,
    fabricateClasses := o.fabricateClasses.getD s.fabricateClasses,
    additionalCss :=
      if s.additionalCss = "" then Option.none else some s.additionalCss,
    commentCssClassPref := s.commentCssClassPref,
    paginationMode :=
      o.paginationMode.getD
        (if s.enablePagination then PaginationMode.Paginated
         else PaginationMode.None),
    paginationScale :=
      match o.paginationScale with
      | some v => some v
      | Option.none =>
          if s.enablePagination then some s.paginationScale
          else Option.none }

/-! ## Zoom controls of the library DocumentViewer and the demo viewer
(part_008 and part_004: handleZoomIn / handleZoomOut / handleZoomChange) -/

/-- Embedding of `handleZoomIn`: the new pagination scale is
`Math.min(paginationScale + 0.1, 2.0)`. -/
def handleZoomIn (paginationScale : ℚ) : ℚ :=
  min (paginationScale + 0.1) 2.0

/-- Embedding of `handleZoomOut`: the new pagination scale is
`Math.max(paginationScale - 0.1, 0.3)`. -/
def handleZoomOut (paginationScale : ℚ) : ℚ :=
  max (paginationScale - 0.1) 0.3

/-- Embedding of `handleZoomChange`: the selected value is clamped by
`Math.max(0.3, Math.min(2.0, value))`. -/
def handleZoomChange (value : ℚ) : ℚ :=
  max 0.3 (min 2.0 value)

/-! ## Worker routing of the library DocumentViewer (part_008) -/

/-- The engine operations the library viewer invokes. -/
inductive EngineOp where
  | convertDocxToHtml
  | getRevisions
  | getDocumentMetadata
deriving DecidableEq

/-- Which route an engine call takes: through the worker proxy or the direct
engine function. -/
inductive Route where
  | viaWorker
  | direct
deriving DecidableEq

/-- Embedding of the routing condition `useWorker && worker ? ... : ...`
shared by `convert`, `extractRevisions` and `fetchMetadata`: the worker route
is taken exactly when the `useWorker` prop is true and the worker proxy state
is non-null. -/
def routeFor (useWorker : Bool) (workerCreated : Bool) : Route :=
  if useWorker && workerCreated then Route.viaWorker else Route.direct

/-- One engine call as issued by the library viewer: the operation, its
argument, and the route taken. -/
structure EngineCall (A : Type) where
  op : EngineOp
  arg : A
  route : Route

/-- The convert-to-HTML call of `convert` in the library viewer, over opaque
worker and file types. -/
def convertCall {W F : Type} (useWorker : Bool) (worker : Option W)
    (fileToConvert : F) (options : ConvertOptions) :
    EngineCall (F × ConvertOptions) :=
  { op := EngineOp.convertDocxToHtml, arg := (fileToConvert, options),
    route := routeFor useWorker worker.isSome }

/-- The `getRevisions` call of `extractRevisions` in the library viewer. -/
def getRevisionsCall {W F : Type} (useWorker : Bool) (worker : Option W)
    (fileToExtract : F) : EngineCall F :=
  { op := EngineOp.getRevisions, arg := fileToExtract,
    route := routeFor useWorker worker.isSome }

/-- The `getDocumentMetadata` call of `fetchMetadata` in the library
viewer. -/
def getMetadataCall {W F : Type} (useWorker : Bool) (worker : Option W)
    (fileToFetch : F) : EngineCall F :=
  { op := EngineOp.getDocumentMetadata, arg := fileToFetch,
    route := routeFor useWorker worker.isSome }

/-! ## Render layout of the library DocumentViewer (part_008, render) -/

/-- The `toolbar` prop values of the library viewer. -/
inductive ToolbarPos where
  | top
  | bottom
  | none
deriving DecidableEq

/-- The top-level children of the viewer root that the claims talk about. -/
inductive ViewerPart where
  | toolbar
  | content
  | settingsModal
deriving DecidableEq

/-- Embedding of the root render of the library `DocumentViewer`: the
toolbar when the prop is `top`, then the content area, then the toolbar when
the prop is `bottom`, then the settings modal when `showSettings` is
true. -/
def viewerLayout (toolbar : ToolbarPos) (showSettings : Bool) :
    List ViewerPart :=
  (if toolbar = ToolbarPos.top then [ViewerPart.toolbar] else [])
    ++ [ViewerPart.content]
    ++ (if toolbar = ToolbarPos.bottom then [ViewerPart.toolbar] else [])
    ++ (if showSettings then [ViewerPart.settingsModal] else [])

/-- The destructuring default `toolbar = 'top'` of the props: the position
used when the prop is not supplied. -/
def resolveToolbarPos (supplied : Option ToolbarPos) : ToolbarPos :=
  supplied.getD ToolbarPos.top

/-- The click events that change the `showSettings` state. -/
inductive ModalEvent where
  | clickSettingsButton
  | clickCloseButton
  | clickOverlay
  | clickApplyAndClose
deriving DecidableEq

/-- Embedding of the `showSettings` updates: the settings button calls
`setShowSettings(true)`; the close button, the overlay click, and
Apply & Close each call `setShowSettings(false)`. -/
def modalStep (showSettings : Bool) (e : ModalEvent) : Bool :=
  match showSettings, e with
  | _, ModalEvent.clickSettingsButton => true
  | _, ModalEvent.clickCloseButton => false
  | _, ModalEvent.clickOverlay => false
  | _, ModalEvent.clickApplyAndClose => false

/-! ## Conversion state and error handling of the demo DocumentViewer
(src/src/components/DocumentViewer.tsx, convert and render) -/

/-- A JS `Error` as this repository consumes it: only its message is read. -/
structure Err where
  message : String

/-- The conversion-relevant state of the demo viewer. -/
structure DemoViewerState where
  html : Option String
  error : Option Err
  isConverting : Bool

/-- Embedding of the demo viewer's `convert`: if the engine is not ready the
state is unchanged; otherwise the error and html are cleared before the
engine call, then the html is set on success and the error on failure, and
`isConverting` ends false (the `finally` branch).  The engine outcome is the
opaque `engineResult`. -/
def demoConvert (isReady : Bool) (s : DemoViewerState)
    (engineResult : Except Err String) : DemoViewerState :=
  if !isReady then s
  else
    match engineResult with
    | Except.ok result =>
        { html := some result, error := Option.none, isConverting := false }
    | Except.error e =>
        { html := Option.none, error := some e, isConverting := false }

/-- The error line the demo viewer renders: present exactly when the error
state is set and no conversion is running, showing the error's message. -/
def demoRenderedError (s : DemoViewerState) : Option String :=
  match s.error with
  | some e =>
      if s.isConverting then Option.none else some ("Error: " ++ e.message)
  | Option.none => Option.none

/-- The document HTML the demo viewer renders: present exactly when the html
state is set and no conversion is running. -/
def demoRenderedHtml (s : DemoViewerState) : Option String :=
  match s.html with
  | some h => if s.isConverting then Option.none else some h
  | Option.none => Option.none

/-! ## Error handling of the library DocumentViewer and the annotation
viewer (part_008 fetchMetadata / extractRevisions, part_002
handleRemoveAnnotation) -/

/-- Document metadata as consumed by the library viewer placeholders. -/
structure DocMetadata where
  estimatedPageCount : Nat

/-- The error-relevant state of the library `DocumentViewer`. -/
structure LibViewerState where
  internalHtml : Option String
  error : Option Err
  revisions : List Revision
  documentMetadata : Option DocMetadata
  isConverting : Bool
  isExtractingRevisions : Bool

/-- Embedding of `fetchMetadata` in the library viewer: on success the
metadata state is set; on an engine rejection the catch block discards the
error and resets the metadata to null ("non-critical, silently fail"). -/
def fetchMetadataStep (s : LibViewerState)
    (engineResult : Except Err DocMetadata) : LibViewerState :=
  match engineResult with
  | Except.ok m => { s with documentMetadata := some m }
  | Except.error _ => { s with documentMetadata := Option.none }

/-- Embedding of `extractRevisions` in the library viewer: a no-op unless
the engine is ready and the revisions tab is shown; on success the revisions
are stored; on an engine rejection the catch block discards the error and
resets the revisions to the empty list ("non-critical, silently fail"). -/
def extractRevisionsStep (isReady showRevisionsTab : Bool)
    (s : LibViewerState) (engineResult : Except Err (List Revision)) :
    LibViewerState :=
  if !(isReady && showRevisionsTab) then s
  else
    match engineResult with
    | Except.ok revs =>
        { s with revisions := revs, isExtractingRevisions := false }
    | Except.error _ =>
        { s with revisions := [], isExtractingRevisions := false }

/-- The error line the library viewer renders: present exactly when its
error state is set and no conversion is running. -/
def libRenderedError (s : LibViewerState) : Option String :=
  match s.error with
  | some e =>
      if s.isConverting then Option.none else some ("Error: " ++ e.message)
  | Option.none => Option.none

/-- The error-relevant state of the `AnnotationViewer` component
(part_002). -/
structure AnnotViewerState where
  documentBytes : Option (List Nat)
  html : Option String
  error : Option Err
  addError : Option String
  consoleLog : List String

/-- Embedding of the catch block of `handleRemoveAnnotation`: the rejected
engine error is only written to the console; neither the `error` nor the
`addError` render state is touched. -/
def handleRemoveAnnotOnError (s : AnnotViewerState) (e : Err) :
    AnnotViewerState :=
  { s with consoleLog :=
      s.consoleLog ++ ["Failed to remove annotation: " ++ e.message] }

/-! ## Vite dev-server WASM middleware (part_000, wasmPublicPlugin) -/

/-- The URL path segment the middleware intercepts. -/
def wasmPref : List Char := String.toList "/wasm/_framework/"

/-- Embedding of node's `join(publicDir, url)` for an absolute url path:
the public directory followed by the url path. -/
def pathJoin (publicDir url : List Char) : List Char := publicDir ++ url

/-- The response the middleware produces when it serves a file itself. -/
structure ServedResponse where
  contentType : Option String
  headers : List (String × String)
  body : List Nat

/-- The middleware outcome: serve the file, or hand over to `next`. -/
inductive MiddlewareResult where
  | served (r : ServedResponse)
  | next

/-- Embedding of the content-type selection of the middleware: chosen by the
url suffix, in the order of the source (`.js`, then `.wasm`, then `.json`),
and absent for any other suffix. -/
def contentTypeFor (url : List Char) : Option String :=
  if String.toList ".js" <:+ url then some "application/javascript"
  else if String.toList ".wasm" <:+ url then some "application/wasm"
  else if String.toList ".json" <:+ url then some "application/json"
  else Option.none

/-- The two cross-origin isolation headers the middleware sets. -/
def coiHeaders : List (String × String) :=
  [("Cross-Origin-Opener-Policy", "same-origin"),
   ("Cross-Origin-Embedder-Policy", "require-corp")]

/-- Embedding of the middleware of `wasmPublicPlugin`: requests whose url
(`req.url || ''`) starts with `/wasm/_framework/` and resolve to an existing
file under the public directory are answered with that file's bytes, the
suffix-dependent content type and the isolation headers; every other request
falls through to `next`.  The dev-server file system is the opaque `fs`. -/
def wasmMiddleware (fs : List Char → Option (List Nat))
    (publicDir : List Char) (reqUrl : Option (List Char)) :
    MiddlewareResult :=
  let url := reqUrl.getD []
  if wasmPref <+: url then
    match fs (pathJoin publicDir url) with
    | some content =>
        MiddlewareResult.served
          { contentType := contentTypeFor url, headers := coiHeaders,
            body := content }
    | Option.none => MiddlewareResult.next
  else MiddlewareResult.next

end Rdv

namespace Rdv

/-! ## Theorems for the RevisionPanel claims -/

/-- C1: for every revision list and non-`all` filter selection, the displayed
list is exactly the sublist of input revisions satisfying the selected
category's predicate, in the original order (a `List.filter`, hence a
sublist); for `all` the displayed list is the input list. -/
theorem C1_filteredRevisions_narrows_to_category (P : RevisionPreds)
    (revs : List Revision) :
    filteredRevisions P FilterType.all revs = revs ∧
    filteredRevisions P FilterType.insertions revs =
      revs.filter P.isInsertion ∧
    filteredRevisions P FilterType.deletions revs =
      revs.filter P.isDeletion ∧
    filteredRevisions P FilterType.moves revs = revs.filter P.isMove ∧
    filteredRevisions P FilterType.formatting revs =
      revs.filter P.isFormatChange ∧
    ∀ filter : FilterType, (filteredRevisions P filter revs).Sublist revs := by
  refine ⟨rfl, rfl, rfl, rfl, rfl, ?_⟩
  intro filter
  cases filter <;>
    simp only [filteredRevisions, if_pos, if_neg, reduceCtorEq,
      not_false_eq_true, reduceIte] <;>
    first
      | exact List.Sublist.refl _
      | exact List.filter_sublist _

/-- C10: `truncateText` is the identity on texts of length at most
`maxLength`, returns the first `maxLength` characters followed by three dots
on longer texts, and its output never exceeds `maxLength + 3` characters;
the revision panel renders the expand button exactly for revisions whose
text exceeds 100 characters. -/
theorem C10_truncateText_bounds (text : List Char) (maxLength : Nat)
    (isExpanded : Bool) (rev : Revision) :
    (text.length ≤ maxLength → truncateText text maxLength = text) ∧
    (maxLength < text.length →
      truncateText text maxLength = text.take maxLength ++ String.toList "...") ∧
    (truncateText text maxLength).length ≤ maxLength + 3 ∧
    ((renderRevisionItem isExpanded rev).hasExpandButton = true ↔
      100 < rev.text.length) := by
  refine ⟨?_, ?_, ?_, ?_⟩
  · intro h
    simp [truncateText, h]
  · intro h
    simp [truncateText, Nat.not_le.mpr h]
  · unfold truncateText
    by_cases h : text.length ≤ maxLength
    · rw [if_pos h]
      omega
    · rw [if_neg h, List.length_append, List.length_take]
      have h3 : (String.toList "...").length = 3 := rfl
      omega
  · simp [renderRevisionItem]

/-- Witness for C10 at concrete inputs: a 2-character text is kept whole
under limit 100, a 5-character text is truncated at limit 3, and a revision
with 3 characters of text gets no expand button. -/
theorem C10_truncateText_bounds_witness :
    truncateText (String.toList "ab") 100 = String.toList "ab" ∧
    truncateText (String.toList "abcde") 3 =
      (String.toList "abcde").take 3 ++ String.toList "..." ∧
    ((renderRevisionItem false
        { author := "a", date := "d", revisionType := "t",
          text := String.toList "abc", isMoveSource := false
        }).hasExpandButton = true ↔
      100 < (String.toList "abc").length) := by
  refine ⟨?_, ?_, ?_⟩
  · exact (C10_truncateText_bounds (String.toList "ab") 100 false
      { author := "a", date := "d", revisionType := "t",
        text := String.toList "abc", isMoveSource := false }).1 (by decide)
  · exact (C10_truncateText_bounds (String.toList "abcde") 3 false
      { author := "a", date := "d", revisionType := "t",
        text := String.toList "abc", isMoveSource := false }).2.1 (by decide)
  · exact (C10_truncateText_bounds (String.toList "abcde") 3 false
      { author := "a", date := "d", revisionType := "t",
        text := String.toList "abc", isMoveSource := false }).2.2.2

/-- C4: the options object the demo viewer forwards to `convertToHtml`
reflects the toggles: the comment mode maps to the matching engine enum value
(`Disabled` otherwise), `paginationMode` is `Paginated` exactly when
pagination is enabled and `None` otherwise, and `paginationScale` is the
selected scale when pagination is enabled and absent otherwise. -/
theorem C4_getConvertOptions_reflects_toggles (s : DemoOptionsState) :
    (s.commentMode = CommentMode.endnote →
      (getConvertOptions s noOverrides).commentRenderMode =
        CommentRenderMode.EndnoteStyle) ∧
    (s.commentMode = CommentMode.inline →
      (getConvertOptions s noOverrides).commentRenderMode =
        CommentRenderMode.Inline) ∧
    (s.commentMode = CommentMode.margin →
      (getConvertOptions s noOverrides).commentRenderMode =
        CommentRenderMode.Margin) ∧
    (s.commentMode = CommentMode.disabled →
      (getConvertOptions s noOverrides).commentRenderMode =
        CommentRenderMode.Disabled) ∧
    ((getConvertOptions s noOverrides).paginationMode =
        PaginationMode.Paginated ↔ s.enablePagination = true) ∧
    (s.enablePagination = false →
      (getConvertOptions s noOverrides).paginationMode =
        PaginationMode.None) ∧
    (s.enablePagination = true →
      (getConvertOptions s noOverrides).paginationScale =
        some s.paginationScale) ∧
    (s.enablePagination = false →
      (getConvertOptions s noOverrides).paginationScale = Option.none) := by
  refine ⟨?_, ?_, ?_, ?_, ?_, ?_, ?_, ?_⟩ <;>
    first
      | (intro h
         simp [getConvertOptions, noOverrides, getCommentRenderMode, h])
      | (cases hp : s.enablePagination <;>
          simp [getConvertOptions, noOverrides, hp])

/-- Witness for C4 at a concrete state: with the endnote comment mode and
pagination enabled at scale 0.8, the forwarded options carry
`EndnoteStyle`, `Paginated` and `some 0.8`. -/
theorem C4_getConvertOptions_reflects_toggles_witness :
    (getConvertOptions
        { commentMode := CommentMode.endnote, pageTitle := "Document",
          cssPref := "docx-", fabricateClasses := true, additionalCss := "",
          commentCssClassPref := "comment-", enablePagination := true,
          paginationScale := (8 : ℚ) / 10 } noOverrides).commentRenderMode =
      CommentRenderMode.EndnoteStyle ∧
    (getConvertOptions
        { commentMode := CommentMode.endnote, pageTitle := "Document",
          cssPref := "docx-", fabricateClasses := true, additionalCss := "",
          commentCssClassPref := "comment-", enablePagination := true,
          paginationScale := (8 : ℚ) / 10 } noOverrides).paginationScale =
      some ((8 : ℚ) / 10) := by
  constructor
  · exact (C4_getConvertOptions_reflects_toggles
      { commentMode := CommentMode.endnote, pageTitle := "Document",
        cssPref := "docx-", fabricateClasses := true, additionalCss := "",
        commentCssClassPref := "comment-", enablePagination := true,
        paginationScale := (8 : ℚ) / 10 }).1 rfl
  · exact (C4_getConvertOptions_reflects_toggles
      { commentMode := CommentMode.endnote, pageTitle := "Document",
        cssPref := "docx-", fabricateClasses := true, additionalCss := "",
        commentCssClassPref := "comment-", enablePagination := true,
        paginationScale := (8 : ℚ) / 10 }).2.2.2.2.2.2.1 rfl

/-- C8: every zoom operation keeps the pagination scale in the closed
interval from 0.3 to 2.0: starting anywhere in the interval, zoom in yields
the minimum of scale plus 0.1 and 2.0, zoom out the maximum of scale minus
0.1 and 0.3, and a direct selection is clamped into the interval. -/
theorem C8_zoom_stays_in_interval (s v : ℚ) (hlo : 0.3 ≤ s)
    (hhi : s ≤ 2.0) :
    handleZoomIn s = min (s + 0.1) 2.0 ∧
    0.3 ≤ handleZoomIn s ∧ handleZoomIn s ≤ 2.0 ∧
    handleZoomOut s = max (s - 0.1) 0.3 ∧
    0.3 ≤ handleZoomOut s ∧ handleZoomOut s ≤ 2.0 ∧
    handleZoomChange v = max 0.3 (min 2.0 v) ∧
    0.3 ≤ handleZoomChange v ∧ handleZoomChange v ≤ 2.0 := by
  refine ⟨rfl, ?_, ?_, rfl, ?_, ?_, rfl, ?_, ?_⟩
  · exact le_min (by linarith) (by norm_num)
  · exact min_le_right _ _
  · exact le_max_right _ _
  · exact max_le (by linarith) (by norm_num)
  · exact le_max_left _ _
  · exact max_le (by norm_num) (min_le_left _ _)

/-- Witness for C8 at the default scale 0.8: zooming in yields 0.9 and both
zoom results stay inside the interval. -/
theorem C8_zoom_stays_in_interval_witness :
    handleZoomIn (0.8 : ℚ) = min ((0.8 : ℚ) + 0.1) 2.0 ∧
    (0.3 : ℚ) ≤ handleZoomIn (0.8 : ℚ) ∧
    handleZoomIn (0.8 : ℚ) ≤ 2.0 ∧
    handleZoomOut (0.8 : ℚ) = max ((0.8 : ℚ) - 0.1) 0.3 ∧
    (0.3 : ℚ) ≤ handleZoomOut (0.8 : ℚ) ∧
    handleZoomOut (0.8 : ℚ) ≤ 2.0 ∧
    handleZoomChange (5 : ℚ) = max 0.3 (min 2.0 (5 : ℚ)) ∧
    (0.3 : ℚ) ≤ handleZoomChange (5 : ℚ) ∧
    handleZoomChange (5 : ℚ) ≤ 2.0 :=
  C8_zoom_stays_in_interval (0.8 : ℚ) (5 : ℚ) (by norm_num) (by norm_num)

/-- C3: each engine call of the library viewer (convert-to-HTML,
getRevisions, getDocumentMetadata) is routed through the worker proxy
exactly when the `useWorker` prop is true and the worker proxy exists, and
the operation and argument of the call are fixed independent of the route
taken. -/
theorem C3_engine_calls_routed_by_worker_flag (W F : Type) (u : Bool)
    (w : Option W) (f : F) (opts : ConvertOptions) :
    ((convertCall u w f opts).route = Route.viaWorker ↔
      u = true ∧ w.isSome = true) ∧
    (convertCall u w f opts).op = EngineOp.convertDocxToHtml ∧
    (convertCall u w f opts).arg = (f, opts) ∧
    ((getRevisionsCall u w f).route = Route.viaWorker ↔
      u = true ∧ w.isSome = true) ∧
    (getRevisionsCall u w f).op = EngineOp.getRevisions ∧
    (getRevisionsCall u w f).arg = f ∧
    ((getMetadataCall u w f).route = Route.viaWorker ↔
      u = true ∧ w.isSome = true) ∧
    (getMetadataCall u w f).op = EngineOp.getDocumentMetadata ∧
    (getMetadataCall u w f).arg = f := by
  refine ⟨?_, rfl, rfl, ?_, rfl, rfl, ?_, rfl, rfl⟩ <;>
    · cases u <;> cases w <;>
        simp [convertCall, getRevisionsCall, getMetadataCall, routeFor]

/-- C6: with the toolbar prop unsupplied the toolbar is rendered at the top,
before the content area; with `bottom` it is rendered after the content; and
with `none` it is not rendered at all, so it appears exactly for the other
two positions. -/
theorem C6_toolbar_top_by_default (ss : Bool) :
    viewerLayout (resolveToolbarPos Option.none) ss =
      [ViewerPart.toolbar, ViewerPart.content] ++
        (if ss then [ViewerPart.settingsModal] else []) ∧
    viewerLayout ToolbarPos.bottom ss =
      [ViewerPart.content, ViewerPart.toolbar] ++
        (if ss then [ViewerPart.settingsModal] else []) ∧
    ViewerPart.toolbar ∉ viewerLayout ToolbarPos.none ss ∧
    (∀ pos, ViewerPart.toolbar ∈ viewerLayout pos ss ↔
      pos ≠ ToolbarPos.none) := by
  refine ⟨?_, ?_, ?_, ?_⟩
  · cases ss <;> decide
  · cases ss <;> decide
  · cases ss <;> decide
  · intro pos
    cases pos <;> cases ss <;> decide

/-- C7: the settings modal is rendered exactly when `showSettings` is true,
the settings button sets `showSettings` to true, and the close button, the
overlay click and Apply & Close each set it to false, from any state. -/
theorem C7_settings_modal_open_close (ss : Bool) (pos : ToolbarPos) :
    (ViewerPart.settingsModal ∈ viewerLayout pos ss ↔ ss = true) ∧
    modalStep ss ModalEvent.clickSettingsButton = true ∧
    modalStep ss ModalEvent.clickCloseButton = false ∧
    modalStep ss ModalEvent.clickOverlay = false ∧
    modalStep ss ModalEvent.clickApplyAndClose = false := by
  cases ss <;> cases pos <;> decide

/-- C9: the demo viewer's `convert` clears the html before calling the
engine, so after a failed conversion the html is null and the error state
holds the thrown error (whose message is rendered), after a successful one
the error is null and the html holds the result, and the rendered error and
rendered document are never present together. -/
theorem C9_error_and_html_exclusive (s : DemoViewerState) (e : Err)
    (r : String) :
    (demoConvert true s (Except.error e)).html = Option.none ∧
    (demoConvert true s (Except.error e)).error = some e ∧
    demoRenderedError (demoConvert true s (Except.error e)) =
      some ("Error: " ++ e.message) ∧
    (demoConvert true s (Except.ok r)).error = Option.none ∧
    (demoConvert true s (Except.ok r)).html = some r ∧
    ∀ res : Except Err String,
      (demoRenderedError (demoConvert true s res)).isSome = false ∨
      (demoRenderedHtml (demoConvert true s res)).isSome = false := by
  refine ⟨rfl, rfl, rfl, rfl, rfl, ?_⟩
  intro res
  cases res <;> simp [demoConvert, demoRenderedError, demoRenderedHtml]

/-- C2 counterexample: a metadata-extraction engine rejection in the library
viewer is caught but its message is never rendered: from a clean state, the
failing `getDocumentMetadata` call leaves the state without any recorded
error and the rendered error line is absent, so not every engine-call error
is rendered to the user. -/
theorem C2_engine_error_policy_counterexample :
    fetchMetadataStep
        { internalHtml := Option.none, error := Option.none, revisions := [],
          documentMetadata := Option.none, isConverting := false,
          isExtractingRevisions := false }
        (Except.error { message := "engine rejected" }) =
      { internalHtml := Option.none, error := Option.none, revisions := [],
        documentMetadata := Option.none, isConverting := false,
        isExtractingRevisions := false } ∧
    libRenderedError
        (fetchMetadataStep
          { internalHtml := Option.none, error := Option.none,
            revisions := [], documentMetadata := Option.none,
            isConverting := false, isExtractingRevisions := false }
          (Except.error { message := "engine rejected" })) =
      Option.none :=
  ⟨rfl, rfl⟩

/-- C2 amended: every engine call is wrapped in a catch at the call boundary
with no retry or recovery, but the policy differs by call: conversion errors
are stored and their message rendered; metadata and revision extraction
errors are silently swallowed (the state is reset and the error discarded);
remove-annotation errors are only written to the console, leaving every
rendered state unchanged. -/
theorem C2_amended_engine_error_policy (s : DemoViewerState)
    (ls : LibViewerState) (t : AnnotViewerState) (e : Err) :
    (demoConvert true s (Except.error e)).error = some e ∧
    demoRenderedError (demoConvert true s (Except.error e)) =
      some ("Error: " ++ e.message) ∧
    fetchMetadataStep ls (Except.error e) =
      { ls with documentMetadata := Option.none } ∧
    (fetchMetadataStep ls (Except.error e)).error = ls.error ∧
    extractRevisionsStep true true ls (Except.error e) =
      { ls with revisions := [], isExtractingRevisions := false } ∧
    (extractRevisionsStep true true ls (Except.error e)).error = ls.error ∧
    (handleRemoveAnnotOnError t e).error = t.error ∧
    (handleRemoveAnnotOnError t e).addError = t.addError ∧
    (handleRemoveAnnotOnError t e).html = t.html ∧
    (handleRemoveAnnotOnError t e).consoleLog =
      t.consoleLog ++ ["Failed to remove annotation: " ++ e.message] := by
  refine ⟨rfl, rfl, rfl, rfl, ?_, ?_, rfl, rfl, rfl, rfl⟩
  · simp [extractRevisionsStep]
  · simp [extractRevisionsStep]

/-- A url ending in `.wasm` does not also end in `.js` (the reversed
suffixes start with distinct characters). -/
theorem wasm_suffix_not_js {l : List Char}
    (h : String.toList ".wasm" <:+ l) : ¬ String.toList ".js" <:+ l := by
  rintro ⟨t2, e2⟩
  obtain ⟨t1, e1⟩ := h
  have e := e1.trans e2.symm
  have er := congrArg List.reverse e
  simp only [List.reverse_append] at er
  have hw : (String.toList ".wasm").reverse =
    ['m', 's', 'a', 'w', '.'] := rfl
  have hj : (String.toList ".js").reverse = ['s', 'j', '.'] := rfl
  rw [hw, hj] at er
  simp only [List.cons_append, List.cons.injEq] at er
  exact absurd er.1 (by decide)

/-- A url ending in `.json` does not also end in `.js`. -/
theorem json_suffix_not_js {l : List Char}
    (h : String.toList ".json" <:+ l) : ¬ String.toList ".js" <:+ l := by
  rintro ⟨t2, e2⟩
  obtain ⟨t1, e1⟩ := h
  have e := e1.trans e2.symm
  have er := congrArg List.reverse e
  simp only [List.reverse_append] at er
  have hn : (String.toList ".json").reverse =
    ['n', 'o', 's', 'j', '.'] := rfl
  have hj : (String.toList ".js").reverse = ['s', 'j', '.'] := rfl
  rw [hn, hj] at er
  simp only [List.cons_append, List.cons.injEq] at er
  exact absurd er.1 (by decide)

/-- A url ending in `.json` does not also end in `.wasm`. -/
theorem json_suffix_not_wasm {l : List Char}
    (h : String.toList ".json" <:+ l) : ¬ String.toList ".wasm" <:+ l := by
  rintro ⟨t2, e2⟩
  obtain ⟨t1, e1⟩ := h
  have e := e1.trans e2.symm
  have er := congrArg List.reverse e
  simp only [List.reverse_append] at er
  have hn : (String.toList ".json").reverse =
    ['n', 'o', 's', 'j', '.'] := rfl
  have hw : (String.toList ".wasm").reverse =
    ['m', 's', 'a', 'w', '.'] := rfl
  rw [hn, hw] at er
  simp only [List.cons_append, List.cons.injEq] at er
  exact absurd er.1 (by decide)

/-- C5: a dev-server request whose url starts with `/wasm/_framework/` and
resolves to an existing file under the public directory is answered with
that file's bytes, the content type matching its suffix (`application/wasm`
for `.wasm`, `application/javascript` for `.js`, `application/json` for
`.json`) and both cross-origin isolation headers; any other request is
passed to the next handler. -/
theorem C5_wasm_middleware_serves_framework_files
    (fs : List Char → Option (List Nat)) (publicDir url : List Char)
    (content : List Nat) (hpre : wasmPref <+: url)
    (hfs : fs (pathJoin publicDir url) = some content) :
    wasmMiddleware fs publicDir (some url) =
      MiddlewareResult.served
        { contentType := contentTypeFor url, headers := coiHeaders,
          body := content } ∧
    (String.toList ".wasm" <:+ url →
      contentTypeFor url = some "application/wasm") ∧
    (String.toList ".js" <:+ url →
      contentTypeFor url = some "application/javascript") ∧
    (String.toList ".json" <:+ url →
      contentTypeFor url = some "application/json") ∧
    ("Cross-Origin-Opener-Policy", "same-origin") ∈ coiHeaders ∧
    ("Cross-Origin-Embedder-Policy", "require-corp") ∈ coiHeaders ∧
    (∀ (fs2 : List Char → Option (List Nat)) (pd : List Char)
        (u : Option (List Char)), ¬ wasmPref <+: u.getD [] →
      wasmMiddleware fs2 pd u = MiddlewareResult.next) ∧
    (∀ (fs2 : List Char → Option (List Nat)) (pd u2 : List Char),
      fs2 (pathJoin pd u2) = Option.none →
      wasmMiddleware fs2 pd (some u2) = MiddlewareResult.next) := by
  refine ⟨?_, ?_, ?_, ?_, ?_, ?_, ?_, ?_⟩
  · simp only [wasmMiddleware, Option.getD_some, if_pos hpre, hfs]
  · intro h
    have hjs := wasm_suffix_not_js h
    simp only [contentTypeFor, if_neg hjs, if_pos h]
  · intro h
    simp only [contentTypeFor, if_pos h]
  · intro h
    have h1 := json_suffix_not_js h
    have h2 := json_suffix_not_wasm h
    simp only [contentTypeFor, if_neg h1, if_neg h2, if_pos h]
  · simp [coiHeaders]
  · simp [coiHeaders]
  · intro fs2 pd u hnot
    simp only [wasmMiddleware, if_neg hnot]
  · intro fs2 pd u2 hnone
    by_cases hp : wasmPref <+: u2
    · simp only [wasmMiddleware, Option.getD_some, if_pos hp, hnone]
    · simp only [wasmMiddleware, Option.getD_some, if_neg hp]

/-- Witness for C5 at a concrete request: a file at
`/wasm/_framework/a.wasm` under public directory `/pub` is served with its
bytes and the `.wasm` content type resolves to `application/wasm`. -/
theorem C5_wasm_middleware_serves_framework_files_witness :
    wasmMiddleware
        (fun p =>
          if p = String.toList "/pub/wasm/_framework/a.wasm" then
            some [0, 97]
          else Option.none)
        (String.toList "/pub")
        (some (String.toList "/wasm/_framework/a.wasm")) =
      MiddlewareResult.served
        { contentType := contentTypeFor
            (String.toList "/wasm/_framework/a.wasm"),
          headers := coiHeaders, body := [0, 97] } ∧
    contentTypeFor (String.toList "/wasm/_framework/a.wasm") =
      some "application/wasm" := by
  have h := C5_wasm_middleware_serves_framework_files
    (fun p =>
      if p = String.toList "/pub/wasm/_framework/a.wasm" then some [0, 97]
      else Option.none)
    (String.toList "/pub") (String.toList "/wasm/_framework/a.wasm")
    [0, 97] (by decide) (by decide)
  exact ⟨h.1, h.2.1 (by decide)⟩

end Rdv
